import Mathlib

/-!
A verification development for `hydrodata/utils.py`: a shallow embedding of
the batch data-acquisition pipeline (`get_data`, `batch`), the retrying HTTP
session (`retry_requests`), the Daymet date-range correction (`daymet_dates`)
and the point-elevation query (`get_elevation`), together with theorems
settling the specification's claims about them.
-/

namespace Hydrodata

/-- Python values that appear in a job record (station dictionary).
`none` is Python's `None`; `pair` models a `(lon, lat)` coordinate tuple;
`yearsMap` models the `{"impervious": _, "cover": _, "canopy": _}` dict. -/
inductive Value where
  | none
  | str (s : String)
  | bool (b : Bool)
  | nat (n : Nat)
  | pair (lon lat : Int)
  | yearsMap (impervious cover canopy : Nat)
  deriving DecidableEq, Repr

/-- Python truthiness of a `Value`, as used by `if stations["climate"]:`. -/
def pyTruthy : Value → Bool
  | .none => false
  | .str s => s ≠ ""
  | .bool b => b
  | .nat n => n ≠ 0
  | .pair _ _ => true
  | .yearsMap _ _ _ => true

/-- The exceptions raised by the embedded code. `keyError` carries the
missing key (or the message for the explicitly-raised exclusivity error);
`httpError` carries the response status. The last four model the exception
classes from the `requests` library used by `get_elevation`. -/
inductive PyError where
  | keyError (msg : String)
  | valueError (msg : String)
  | httpError (status : Nat)
  | connectionError
  | timeout
  | requestException
  deriving DecidableEq, Repr

/-- A Python dict with string keys, as an insertion-ordered association
list with unique keys (Python dict semantics). -/
abbrev Record := List (String × Value)

/-- Dict lookup returning `Option` (`d.get(k)`). First binding wins;
records built by the embedded code never hold duplicate keys. -/
def lookup? (r : Record) (k : String) : Option Value :=
  (r.find? (fun p => p.1 == k)).map (·.2)

/-- `list(stations.keys())`, the `params` list of `get_data`. -/
def keysOf (r : Record) : List String := r.map (·.1)

/-- Dict subscript access `r[k]`: raises `KeyError(k)` when absent. -/
def dictGet (r : Record) (k : String) : Except PyError Value :=
  match lookup? r k with
  | Option.none => .error (.keyError k)
  | Option.some v => .ok v

/-- Dict item assignment `r[k] = v`: updates the binding in place when the
key is present, otherwise appends it (Python dict insertion order). -/
def dictSet (r : Record) (k : String) (v : Value) : Record :=
  match r with
  | [] => [(k, v)]
  | (k', v') :: rest =>
    if k' == k then (k', v) :: rest else (k', v') :: dictSet rest k v

/-- The `default` dict of `get_data`, in source order. Note the misspelled
key `yreas` for the NLCD years mapping, exactly as in the source. -/
def defaultList : Record :=
  [ ("start", .none)
  , ("end", .none)
  , ("station_id", .none)
  , ("coords", .none)
  , ("data_dir", .str "./data")
  , ("rain_snow", .bool false)
  , ("phenology", .bool false)
  , ("width", .nat 2000)
  , ("climate", .bool false)
  , ("nlcd", .bool false)
  , ("yreas", .yearsMap 2016 2016 2016)
  ]

/-- The mutual-exclusivity test of `get_data`: both `station_id` and
`coords` are keys of the record and both values are non-`None`. -/
def bothSet (r : Record) : Bool :=
  match lookup? r "station_id", lookup? r "coords" with
  | Option.some a, Option.some b => a ≠ Value.none && b ≠ Value.none
  | _, _ => false

/-- The default-merging loop of `get_data`:
`for k in list(default.keys()): if k not in params: stations[k] = default[k]`,
with `params` the key list captured before the loop. -/
def mergeLoop (params : List String) : List (String × Value) → Record → Record
  | [], acc => acc
  | (k, v) :: rest, acc =>
    mergeLoop params rest (if k ∈ params then acc else dictSet acc k v)

def mergeDefaults (r : Record) : Record :=
  mergeLoop (keysOf r) defaultList r

/-- The message of the exclusivity `KeyError` raised by `get_data`. -/
def exclusivityMsg : String := "Either coords or station_id should be provided."

/-- The normalization step of `get_data` (the spec's JobParameters):
the exclusivity check followed by the default-merging loop. The first
component is the state of the caller-supplied dict after the call — Python
dicts are passed by reference and the loop assigns `stations[k] = ...` in
place, so on success it equals the merged record, and on the exclusivity
error (raised before the loop) it is the unchanged input. The second
component is the outcome. -/
def jobParams (stations : Record) : Record × Except PyError Record :=
  if bothSet stations then
    (stations, .error (.keyError exclusivityMsg))
  else
    let m := mergeDefaults stations
    (m, .ok m)

/-- The keyword arguments passed to the `Dataloader` constructor. -/
structure DataloaderArgs where
  start : Value
  stop : Value
  station_id : Value
  coords : Value
  data_dir : Value
  rain_snow : Value
  phenology : Value
  width : Value
  deriving DecidableEq, Repr

/-- Observable dataset-loading work performed by a job: construction of the
`Dataloader` and the optional climate / NLCD augmentation calls. -/
inductive Event where
  | loaderConstructed (args : DataloaderArgs)
  | getClimate (args : DataloaderArgs)
  | getNlcd (args : DataloaderArgs) (years : Value)
  deriving DecidableEq, Repr

def isLoaderConstructed : Event → Bool
  | .loaderConstructed _ => true
  | _ => false

/-- The external `Dataloader` collaborator (`from hydrodata import
Dataloader`), treated by the spec as an opaque dependency: its constructor
and methods may raise, and `data_dir` is the attribute the job returns. -/
structure Env where
  loader : DataloaderArgs → Except PyError Unit
  get_climate : DataloaderArgs → Except PyError Unit
  get_nlcd : DataloaderArgs → Value → Except PyError Unit
  data_dir : DataloaderArgs → Value

/-- Reading the eight `Dataloader` keyword arguments out of the merged
record (each a dict subscript, hence a potential `KeyError`). -/
def argsOf (s : Record) : Except PyError DataloaderArgs := do
  let start ← dictGet s "start"
  let stop ← dictGet s "end"
  let station_id ← dictGet s "station_id"
  let coords ← dictGet s "coords"
  let data_dir ← dictGet s "data_dir"
  let rain_snow ← dictGet s "rain_snow"
  let phenology ← dictGet s "phenology"
  let width ← dictGet s "width"
  pure ⟨start, stop, station_id, coords, data_dir, rain_snow, phenology, width⟩

/-- The `if stations["nlcd"]: station.get_nlcd(stations["years"])` step and
the final `return station.data_dir`. Note the lookup of `"years"`: the
defaults were inserted under `yreas`, so this subscript can raise
`KeyError("years")`. -/
def nlcdStep (env : Env) (s : Record) (args : DataloaderArgs)
    (t : List Event) : List Event × Except PyError Value :=
  match dictGet s "nlcd" with
  | .error e => (t, .error e)
  | .ok v =>
    if pyTruthy v then
      match dictGet s "years" with
      | .error e => (t, .error e)
      | .ok yrs =>
        match env.get_nlcd args yrs with
        | .error e => (t ++ [.getNlcd args yrs], .error e)
        | .ok _ => (t ++ [.getNlcd args yrs], .ok (env.data_dir args))
    else (t, .ok (env.data_dir args))

/-- The `if stations["climate"]: station.get_climate()` step. -/
def climateStep (env : Env) (s : Record) (args : DataloaderArgs)
    (t : List Event) : List Event × Except PyError Value :=
  match dictGet s "climate" with
  | .error e => (t, .error e)
  | .ok v =>
    if pyTruthy v then
      match env.get_climate args with
      | .error e => (t ++ [.getClimate args], .error e)
      | .ok _ => nlcdStep env s args (t ++ [.getClimate args])
    else nlcdStep env s args t

/-- `get_data(stations)`: normalization, `Dataloader` construction, the
optional augmentation steps, and the returned `station.data_dir`. The first
component is the trace of dataset-loading work performed. -/
def get_data (env : Env) (stations : Record) :
    List Event × Except PyError Value :=
  match (jobParams stations).2 with
  | .error e => ([], .error e)
  | .ok s =>
    match argsOf s with
    | .error e => ([], .error e)
    | .ok args =>
      match env.loader args with
      | .error e => ([.loaderConstructed args], .error e)
      | .ok _ => climateStep env s args [.loaderConstructed args]

/-- Iterating `list(executor.map(get_data, stations))`: results are yielded
in submission order, and the first job (in input order) that raised has its
exception re-raised by the iteration. -/
def collectResults : List (Except PyError Value) → Except PyError (List Value)
  | [] => .ok []
  | .error e :: _ => .error e
  | .ok v :: rest =>
    match collectResults rest with
    | .error e => .error e
    | .ok vs => .ok (v :: vs)

/-- `batch(stations)`: every record is submitted to the worker pool (the
executor runs each `get_data` regardless of the others' outcomes, so the
batch trace collects every job's events), and the result list is gathered
in submission order by `list(executor.map(...))`. -/
def batch (env : Env) (stations : List Record) :
    List Event × Except PyError (List Value) :=
  let runs := stations.map (get_data env)
  ((runs.map Prod.fst).flatten, collectResults (runs.map Prod.snd))

/-! ### The retrying HTTP session (`retry_requests`) -/

/-- The `status_to_retry` default of `retry_requests`, installed as the
urllib3 `Retry` status forcelist. -/
def status_forcelist : List Nat := [500, 502, 504]

/-- Modelled from the `requests` library: `Response.raise_for_status`, the
hook that `retry_requests` installs on every response, raises `HTTPError`
(carrying the response) exactly for statuses in the client/server error
range `400 ≤ status < 600`, and returns normally otherwise. -/
def raise_for_status (status : Nat) : Except PyError Unit :=
  if 400 ≤ status ∧ status < 600 then .error (.httpError status) else .ok ()

/-- Delivery of a completed response (one not consumed by the retry
machinery) through a `retry_requests` session: the installed response hook
`lambda r, *args, **kwargs: r.raise_for_status()` runs first; if it raises,
the exception propagates to the caller, otherwise the response (identified
by its status) is returned. -/
def sessionDeliver (status : Nat) : Except PyError Nat :=
  match raise_for_status status with
  | .error e => .error e
  | .ok _ => .ok status

/-! ### The point-elevation query (`get_elevation`) -/

/-- Exception classes of the `requests` library, for the
`except ConnectionError or Timeout or RequestException` clause.
`requestException` is the base class; the other three are its direct
subclasses (`HTTPError`, `ConnectionError`, `Timeout`), none of which is a
subclass of another. -/
inductive ExcClass where
  | connectionError
  | timeout
  | httpError
  | requestException
  | other
  deriving DecidableEq, Repr

/-- `isinstance` against a `requests` exception class: every class matches
itself, and the four library classes all match the `requestException`
base. -/
def isSubclass (c d : ExcClass) : Bool :=
  c == d ||
    (d == .requestException &&
      (c == .connectionError || c == .timeout || c == .httpError))

/-- The class of a raised exception value. -/
def classOf : PyError → ExcClass
  | .keyError _ => .other
  | .valueError _ => .other
  | .httpError _ => .httpError
  | .connectionError => .connectionError
  | .timeout => .timeout
  | .requestException => .requestException

/-- Python `or` on class objects: class objects are truthy, so the first
operand is returned. -/
def pyOrClass (a _b : ExcClass) : ExcClass := a

/-- The expression `ConnectionError or Timeout or RequestException` in the
`except` clause of `get_elevation`: evaluated as a boolean-or of truthy
class objects, it yields its first operand. -/
def exceptClauseClass : ExcClass :=
  pyOrClass .connectionError (pyOrClass .timeout .requestException)

/-- Whether the `except` clause of `get_elevation` handles an exception of
class `c`: Python matches the raised exception against the value of the
clause's expression. -/
def clauseCatches (c : ExcClass) : Bool := isSubclass c exceptClauseClass

/-- The `ValueError` message for the sentinel elevation. The f-string
interpolates `lon` and `lat` after both were wrapped into single-element
lists, hence the brackets. -/
def elevMsg (lon lat : Int) : String :=
  "The altitude of the requested coordinate ([" ++ toString lon ++
    "], [" ++ toString lat ++ "]) cannot be found."

/-- `get_elevation(lon, lat)` for a single coordinate. `svc` is the outcome
of `session.get` on the 3DEP endpoint: either a raised exception or the
elevation parsed out of the JSON body
(`r.json()['USGS_Elevation_Point_Query_Service']['Elevation_Query']['Elevation']`).
The first component records whether the `except` clause handled the
exception (its body is a bare `raise`, so a caught exception is re-raised
unchanged; an uncaught one propagates unchanged as well). -/
def get_elevation (svc : Except PyError Int) (lon lat : Int) :
    Bool × Except PyError Int :=
  match svc with
  | .error e => (clauseCatches (classOf e), .error e)
  | .ok elevation =>
    if elevation = -1000000 then
      (false, .error (.valueError (elevMsg lon lat)))
    else
      (false, .ok elevation)

/-! ### The Daymet date-range correction (`daymet_dates`)

`daymet_dates` manipulates pandas `Timestamp`s (calendar dates). We embed
dates in the proleptic Gregorian calendar: `pd.date_range(start, end)` is
the list of consecutive dates from `start` to `end` inclusive (empty when
`start > end`), `is_leap_year` is the Gregorian leap-year predicate, and
`strftime("%Y-%m-%d").endswith("12-31")` holds exactly for dates with
month 12 and day 31 (both fields are zero-padded to two digits). -/

/-- Gregorian leap-year predicate (pandas `is_leap_year`). -/
def isLeap (y : Nat) : Bool :=
  (y % 4 == 0 && y % 100 != 0) || y % 400 == 0

/-- Length of month `m` (1–12) in a year with leap flag `leap`. -/
def daysInMonth (leap : Bool) (m : Nat) : Nat :=
  match m with
  | 1 => 31
  | 2 => if leap then 29 else 28
  | 3 => 31
  | 4 => 30
  | 5 => 31
  | 6 => 30
  | 7 => 31
  | 8 => 31
  | 9 => 30
  | 10 => 31
  | 11 => 30
  | 12 => 31
  | _ => 0

/-- Total days in months `1..m` of a year with leap flag `leap`. -/
def cumDays (leap : Bool) : Nat → Nat
  | 0 => 0
  | m + 1 => cumDays leap m + daysInMonth leap (m + 1)

def daysInYear (y : Nat) : Nat := if isLeap y then 366 else 365

/-- Days in years `0..y-1` of the proleptic Gregorian calendar (closed
form: 365 per year plus one per leap year below `y`). -/
def ordOfYear (y : Nat) : Nat :=
  365 * y + (y + 3) / 4 + (y + 399) / 400 - (y + 99) / 100

/-- A calendar date. -/
structure Date where
  year : Nat
  month : Nat
  day : Nat
  deriving DecidableEq, Repr

/-- A date that actually exists in the calendar. -/
def Date.Okay (d : Date) : Prop :=
  1 ≤ d.month ∧ d.month ≤ 12 ∧ 1 ≤ d.day ∧
    d.day ≤ daysInMonth (isLeap d.year) d.month

instance (d : Date) : Decidable d.Okay := by unfold Date.Okay; infer_instance

/-- The day number of a date (days since 0000-01-01): the timeline order
of pandas `Timestamp`s. -/
def toOrd (d : Date) : Nat :=
  ordOfYear d.year + cumDays (isLeap d.year) (d.month - 1) + (d.day - 1)

/-- The calendar successor of a date. -/
def nextDay (d : Date) : Date :=
  if d.day < daysInMonth (isLeap d.year) d.month then ⟨d.year, d.month, d.day + 1⟩
  else if d.month < 12 then ⟨d.year, d.month + 1, 1⟩
  else ⟨d.year + 1, 1, 1⟩

/-- Enumeration of consecutive dates up to `e`, with enough fuel to reach
`e` from the start date. -/
def dateRangeGo (e : Date) : Date → Nat → List Date
  | _, 0 => []
  | d, fuel + 1 =>
    if toOrd d ≤ toOrd e then d :: dateRangeGo e (nextDay d) fuel else []

/-- `pd.date_range(start, end)`: all dates from `start` to `stop`
inclusive, in order; empty when `start` is after `stop`. -/
def date_range (start stop : Date) : List Date :=
  dateRangeGo stop start (toOrd stop + 1 - toOrd start)

/-- The date filter of `daymet_dates`: a date survives iff it is not
December 31 of a leap year (`nl` keeps every non-leap-year date, `lp`
keeps leap-year dates not ending in "12-31"). -/
def daymetKeep (d : Date) : Bool :=
  !(isLeap d.year && (d.month == 12 && d.day == 31))

/-- `pandas.unique` on the year column: first-occurrence order. -/
def uniques (l : List Nat) : List Nat :=
  l.foldl (fun acc y => if y ∈ acc then acc else acc ++ [y]) []

/-- `daymet_dates(start, end)`: filter the date range, group by calendar
year in first-occurrence order, and return each group's first and last
date (`(y[0], y[-1])`; every group is nonempty since grouping years are
drawn from the filtered range itself, so the fallback date is never
used). -/
def daymet_dates (start stop : Date) : List (Date × Date) :=
  let period := (date_range start stop).filter daymetKeep
  let ys := uniques (period.map Date.year)
  ys.map (fun y =>
    let g := period.filter (fun d => d.year == y)
    (g.headD ⟨0, 0, 0⟩, g.getLastD ⟨0, 0, 0⟩))

/-! ### Concrete test fixtures -/

/-- A benign `Dataloader` collaborator: construction and both augmentation
calls succeed, and `station.data_dir` is the `data_dir` the loader was
constructed with. -/
def env0 : Env where
  loader := fun _ => .ok ()
  get_climate := fun _ => .ok ()
  get_nlcd := fun _ _ => .ok ()
  data_dir := fun a => a.data_dir

/-- A valid job record: a station identifier and no coordinates. -/
def recGood : Record :=
  [ ("start", .str "2000-01-01")
  , ("end", .str "2000-12-31")
  , ("station_id", .str "01031500")
  ]

/-- A second valid job record with an explicit output directory. -/
def recGood2 : Record :=
  [ ("start", .str "2005-01-01")
  , ("end", .str "2005-12-31")
  , ("coords", .pair (-69) 45)
  , ("data_dir", .str "./data2")
  ]

/-- An invalid job record: both `station_id` and `coords` are non-null. -/
def recBoth : Record :=
  [ ("start", .str "2000-01-01")
  , ("end", .str "2000-12-31")
  , ("station_id", .str "01031500")
  , ("coords", .pair (-69) 45)
  ]

/-- A record that requests NLCD data without supplying `years`. -/
def recNlcd : Record :=
  [ ("start", .str "2000-01-01")
  , ("end", .str "2000-12-31")
  , ("station_id", .str "01031500")
  , ("nlcd", .bool true)
  ]

instance {e a : Type} [DecidableEq e] [DecidableEq a] : DecidableEq (Except e a) := fun x y =>
  match x, y with
  | .error u, .error v => decidable_of_iff (u = v) (by simp)
  | .ok u, .ok v => decidable_of_iff (u = v) (by simp)
  | .error _, .ok _ => .isFalse (fun h => Except.noConfusion h)
  | .ok _, .error _ => .isFalse (fun h => Except.noConfusion h)

/-! ## Calendar lemmas -/

theorem isLeap_iff (y : Nat) :
    isLeap y = true ↔ ((y % 4 = 0 ∧ y % 100 ≠ 0) ∨ y % 400 = 0) := by
  simp [isLeap]

theorem ordOfYear_succ (y : Nat) : ordOfYear (y + 1) = ordOfYear y + daysInYear y := by
  have h4 : (y + 1 + 3) / 4 = y / 4 + 1 := by omega
  have h400 : (y + 1 + 399) / 400 = y / 400 + 1 := by omega
  have h100 : (y + 1 + 99) / 100 = y / 100 + 1 := by omega
  unfold ordOfYear daysInYear
  rw [h4, h400, h100]
  by_cases c4 : y % 4 = 0
  · by_cases c100 : y % 100 = 0
    · by_cases c400 : y % 400 = 0
      · have hL : isLeap y = true := (isLeap_iff y).mpr (Or.inr c400)
        have g4 : (y + 3) / 4 = y / 4 := by omega
        have g400 : (y + 399) / 400 = y / 400 := by omega
        have g100 : (y + 99) / 100 = y / 100 := by omega
        rw [hL, g4, g400, g100]
        simp only [if_true]
        omega
      · have hL : isLeap y = false := by
          cases h : isLeap y
          · rfl
          · rcases (isLeap_iff y).mp h with ⟨_, hb⟩ | hc
            · exact absurd c100 hb
            · exact absurd hc c400
        have g4 : (y + 3) / 4 = y / 4 := by omega
        have g400 : (y + 399) / 400 = y / 400 + 1 := by omega
        have g100 : (y + 99) / 100 = y / 100 := by omega
        rw [hL, g4, g400, g100]
        simp only [Bool.false_eq_true, if_false]
        omega
    · have c400 : ¬ y % 400 = 0 := by omega
      have hL : isLeap y = true := (isLeap_iff y).mpr (Or.inl ⟨c4, c100⟩)
      have g4 : (y + 3) / 4 = y / 4 := by omega
      have g400 : (y + 399) / 400 = y / 400 + 1 := by omega
      have g100 : (y + 99) / 100 = y / 100 + 1 := by omega
      rw [hL, g4, g400, g100]
      simp only [if_true]
      omega
  · have c400 : ¬ y % 400 = 0 := by omega
    have hL : isLeap y = false := by
      cases h : isLeap y
      · rfl
      · rcases (isLeap_iff y).mp h with ⟨ha, _⟩ | hc
        · exact absurd ha c4
        · exact absurd hc c400
    have g4 : (y + 3) / 4 = y / 4 + 1 := by omega
    have g400 : (y + 399) / 400 = y / 400 + 1 := by omega
    by_cases c100 : y % 100 = 0
    · have g100 : (y + 99) / 100 = y / 100 := by omega
      rw [hL, g4, g400, g100]
      simp only [Bool.false_eq_true, if_false]
      omega
    · have g100 : (y + 99) / 100 = y / 100 + 1 := by omega
      rw [hL, g4, g400, g100]
      simp only [Bool.false_eq_true, if_false]
      omega

theorem daysInYear_eq (y : Nat) : 365 ≤ daysInYear y ∧ daysInYear y ≤ 366 := by
  unfold daysInYear; split <;> omega

theorem ordOfYear_mono {y y' : Nat} (h : y ≤ y') : ordOfYear y ≤ ordOfYear y' := by
  induction y' with
  | zero =>
    have : y = 0 := by omega
    simp [this]
  | succ n ih =>
    rcases Nat.lt_or_ge y (n + 1) with h' | h'
    · calc ordOfYear y ≤ ordOfYear n := ih (by omega)
        _ ≤ ordOfYear (n + 1) := by
            rw [ordOfYear_succ]
            have := daysInYear_eq n
            omega
    · have hy : y = n + 1 := by omega
      simp [hy]

theorem ordOfYear_strict {y y' : Nat} (h : y < y') : ordOfYear y < ordOfYear y' := by
  have h1 : ordOfYear (y + 1) = ordOfYear y + daysInYear y := ordOfYear_succ y
  have h2 : ordOfYear (y + 1) ≤ ordOfYear y' := ordOfYear_mono h
  have := daysInYear_eq y
  omega

theorem cumDays_succ (l : Bool) (m : Nat) :
    cumDays l (m + 1) = cumDays l m + daysInMonth l (m + 1) := rfl

theorem cumDays_mono (l : Bool) {m m' : Nat} (h : m ≤ m') :
    cumDays l m ≤ cumDays l m' := by
  induction m' with
  | zero =>
    have : m = 0 := by omega
    simp [this]
  | succ n ih =>
    rcases Nat.lt_or_ge m (n + 1) with h' | h'
    · calc cumDays l m ≤ cumDays l n := ih (by omega)
        _ ≤ cumDays l (n + 1) := by rw [cumDays_succ]; omega
    · have hm : m = n + 1 := by omega
      simp [hm]

theorem cumDays_isLeap (y : Nat) : cumDays (isLeap y) 12 = daysInYear y := by
  unfold daysInYear
  cases h : isLeap y <;> decide

theorem daysInMonth_pos (l : Bool) {m : Nat} (h1 : 1 ≤ m) (h12 : m ≤ 12) :
    1 ≤ daysInMonth l m := by
  interval_cases m <;> cases l <;> decide

theorem dayPart_lt (l : Bool) {m d : Nat} (h1 : 1 ≤ m) (h12 : m ≤ 12)
    (hd1 : 1 ≤ d) (hdm : d ≤ daysInMonth l m) :
    cumDays l (m - 1) + (d - 1) < cumDays l 12 := by
  obtain ⟨k, rfl⟩ : ∃ k, m = k + 1 := ⟨m - 1, by omega⟩
  have hs : cumDays l (k + 1) = cumDays l k + daysInMonth l (k + 1) := rfl
  have hm : cumDays l (k + 1) ≤ cumDays l 12 := cumDays_mono l (by omega)
  simp only [Nat.add_sub_cancel]
  omega

theorem toOrd_lower {dt : Date} : ordOfYear dt.year ≤ toOrd dt := by
  unfold toOrd; omega

theorem toOrd_upper {dt : Date} (h : dt.Okay) : toOrd dt < ordOfYear (dt.year + 1) := by
  obtain ⟨h1, h12, hd1, hdm⟩ := h
  have hlt := dayPart_lt (isLeap dt.year) h1 h12 hd1 hdm
  have h12' := cumDays_isLeap dt.year
  have hsucc := ordOfYear_succ dt.year
  unfold toOrd
  omega

theorem monthDay_det (l : Bool) {m1 d1 m2 d2 : Nat}
    (hm1 : 1 ≤ m1) (h12a : m1 ≤ 12) (hd1 : 1 ≤ d1) (hdm1 : d1 ≤ daysInMonth l m1)
    (hm2 : 1 ≤ m2) (h12b : m2 ≤ 12) (hd2 : 1 ≤ d2) (hdm2 : d2 ≤ daysInMonth l m2)
    (h : cumDays l (m1 - 1) + (d1 - 1) = cumDays l (m2 - 1) + (d2 - 1)) :
    m1 = m2 ∧ d1 = d2 := by
  rcases Nat.lt_trichotomy m1 m2 with hlt | heq | hgt
  · exfalso
    obtain ⟨k, rfl⟩ : ∃ k, m1 = k + 1 := ⟨m1 - 1, by omega⟩
    have hs : cumDays l (k + 1) = cumDays l k + daysInMonth l (k + 1) := rfl
    have hmono : cumDays l (k + 1) ≤ cumDays l (m2 - 1) := cumDays_mono l (by omega)
    simp only [Nat.add_sub_cancel] at h
    omega
  · subst heq
    exact ⟨rfl, by omega⟩
  · exfalso
    obtain ⟨k, rfl⟩ : ∃ k, m2 = k + 1 := ⟨m2 - 1, by omega⟩
    have hs : cumDays l (k + 1) = cumDays l k + daysInMonth l (k + 1) := rfl
    have hmono : cumDays l (k + 1) ≤ cumDays l (m1 - 1) := cumDays_mono l (by omega)
    simp only [Nat.add_sub_cancel] at h
    omega

theorem year_le_of_toOrd_le {a b : Date} (hb : b.Okay)
    (h : toOrd a ≤ toOrd b) : a.year ≤ b.year := by
  by_contra hc
  have h1 : toOrd b < ordOfYear (b.year + 1) := toOrd_upper hb
  have h2 : ordOfYear (b.year + 1) ≤ ordOfYear a.year := ordOfYear_mono (by omega)
  have h3 : ordOfYear a.year ≤ toOrd a := toOrd_lower
  omega

theorem toOrd_inj {a b : Date} (ha : a.Okay) (hb : b.Okay)
    (h : toOrd a = toOrd b) : a = b := by
  have hy : a.year = b.year :=
    Nat.le_antisymm (year_le_of_toOrd_le hb (by omega))
      (year_le_of_toOrd_le ha (by omega))
  obtain ⟨h1a, h12a, hd1a, hdma⟩ := ha
  obtain ⟨h1b, h12b, hd1b, hdmb⟩ := hb
  unfold toOrd at h
  rw [hy] at h hdma
  have hmd := monthDay_det (isLeap b.year) h1a h12a hd1a hdma h1b h12b hd1b hdmb (by omega)
  calc a = ⟨a.year, a.month, a.day⟩ := rfl
    _ = ⟨b.year, b.month, b.day⟩ := by rw [hy, hmd.1, hmd.2]
    _ = b := rfl

end Hydrodata
namespace Hydrodata

theorem okay_mk {y m d : Nat} :
    (Date.mk y m d).Okay ↔
      (1 ≤ m ∧ m ≤ 12 ∧ 1 ≤ d ∧ d ≤ daysInMonth (isLeap y) m) := Iff.rfl

theorem toOrd_mk (y m d : Nat) :
    toOrd ⟨y, m, d⟩ = ordOfYear y + cumDays (isLeap y) (m - 1) + (d - 1) := rfl

theorem cumDays_pred (l : Bool) {m : Nat} (h : 1 ≤ m) :
    cumDays l m = cumDays l (m - 1) + daysInMonth l m := by
  obtain ⟨k, rfl⟩ : ∃ k, m = k + 1 := ⟨m - 1, by omega⟩
  simp [cumDays_succ]

theorem nextDay_okay {dt : Date} (h : dt.Okay) : (nextDay dt).Okay := by
  obtain ⟨y, m, d⟩ := dt
  rw [okay_mk] at h
  obtain ⟨h1, h12, hd1, hdm⟩ := h
  unfold nextDay
  dsimp only
  split
  · rw [okay_mk]
    exact ⟨h1, h12, by omega, by omega⟩
  · split
    · rw [okay_mk]
      exact ⟨by omega, by omega, le_refl 1, daysInMonth_pos _ (by omega) (by omega)⟩
    · rw [okay_mk]
      refine ⟨by omega, by omega, le_refl 1, ?_⟩
      have : daysInMonth (isLeap (y + 1)) 1 = 31 := rfl
      omega

theorem toOrd_nextDay {dt : Date} (h : dt.Okay) : toOrd (nextDay dt) = toOrd dt + 1 := by
  obtain ⟨y, m, d⟩ := dt
  rw [okay_mk] at h
  obtain ⟨h1, h12, hd1, hdm⟩ := h
  unfold nextDay
  dsimp only
  split
  · rw [toOrd_mk, toOrd_mk]
    omega
  · split
    · rw [toOrd_mk, toOrd_mk]
      simp only [Nat.add_sub_cancel]
      have hp := cumDays_pred (isLeap y) h1
      omega
    · have hm : m = 12 := by omega
      subst hm
      have hdim : daysInMonth (isLeap y) 12 = 31 := rfl
      have hd31 : d = 31 := by omega
      subst hd31
      rw [toOrd_mk, toOrd_mk]
      have hz : cumDays (isLeap (y + 1)) (1 - 1) = 0 := rfl
      have hc : cumDays (isLeap y) 12 = cumDays (isLeap y) (12 - 1) + 31 := by
        have := cumDays_pred (isLeap y) (show 1 ≤ 12 by omega)
        omega
      have hs := ordOfYear_succ y
      have hl := cumDays_isLeap y
      omega


theorem dateRangeGo_okay {e : Date} :
    ∀ (fuel : Nat) (s : Date), s.Okay → ∀ d ∈ dateRangeGo e s fuel, d.Okay := by
  intro fuel
  induction fuel with
  | zero =>
    intro s hs d hd
    simp [dateRangeGo] at hd
  | succ n ih =>
    intro s hs d hd
    unfold dateRangeGo at hd
    split at hd
    · rcases List.mem_cons.mp hd with rfl | hd2
      · exact hs
      · exact ih (nextDay s) (nextDay_okay hs) d hd2
    · simp at hd

theorem dateRangeGo_ge {e : Date} :
    ∀ (fuel : Nat) (s : Date), s.Okay →
      ∀ d ∈ dateRangeGo e s fuel, toOrd s ≤ toOrd d := by
  intro fuel
  induction fuel with
  | zero =>
    intro s hs d hd
    simp [dateRangeGo] at hd
  | succ n ih =>
    intro s hs d hd
    unfold dateRangeGo at hd
    split at hd
    · rcases List.mem_cons.mp hd with rfl | hd2
      · exact le_refl _
      · have h1 := ih (nextDay s) (nextDay_okay hs) d hd2
        have h2 := toOrd_nextDay hs
        omega
    · simp at hd

theorem dateRangeGo_le {e : Date} :
    ∀ (fuel : Nat) (s : Date), ∀ d ∈ dateRangeGo e s fuel, toOrd d ≤ toOrd e := by
  intro fuel
  induction fuel with
  | zero =>
    intro s d hd
    simp [dateRangeGo] at hd
  | succ n ih =>
    intro s d hd
    unfold dateRangeGo at hd
    split at hd
    · rcases List.mem_cons.mp hd with rfl | hd2
      · assumption
      · exact ih (nextDay s) d hd2
    · simp at hd

theorem dateRangeGo_sorted {e : Date} :
    ∀ (fuel : Nat) (s : Date), s.Okay →
      List.Pairwise (fun a b => toOrd a < toOrd b) (dateRangeGo e s fuel) := by
  intro fuel
  induction fuel with
  | zero =>
    intro s hs
    simp [dateRangeGo]
  | succ n ih =>
    intro s hs
    unfold dateRangeGo
    split
    · refine List.Pairwise.cons ?_ (ih (nextDay s) (nextDay_okay hs))
      intro d hd
      have h1 := dateRangeGo_ge n (nextDay s) (nextDay_okay hs) d hd
      have h2 := toOrd_nextDay hs
      omega
    · simp

theorem dateRangeGo_mem {e : Date} :
    ∀ (fuel : Nat) (s d : Date), s.Okay → d.Okay →
      toOrd s ≤ toOrd d → toOrd d ≤ toOrd e → toOrd d - toOrd s < fuel →
      d ∈ dateRangeGo e s fuel := by
  intro fuel
  induction fuel with
  | zero =>
    intro s d _ _ _ _ hf
    omega
  | succ n ih =>
    intro s d hs hd hsd hde hf
    unfold dateRangeGo
    rw [if_pos (by omega)]
    rcases Nat.eq_or_lt_of_le hsd with heq | hlt
    · have : s = d := toOrd_inj hs hd heq
      subst this
      exact List.mem_cons_self _ _
    · refine List.mem_cons_of_mem _ (ih (nextDay s) d (nextDay_okay hs) hd ?_ hde ?_)
      · have := toOrd_nextDay hs
        omega
      · have := toOrd_nextDay hs
        omega

theorem mem_date_range {s e d : Date} (hs : s.Okay) :
    d ∈ date_range s e ↔ (d.Okay ∧ toOrd s ≤ toOrd d ∧ toOrd d ≤ toOrd e) := by
  constructor
  · intro hd
    exact ⟨dateRangeGo_okay _ s hs d hd, dateRangeGo_ge _ s hs d hd,
      dateRangeGo_le _ s d hd⟩
  · rintro ⟨hd, hsd, hde⟩
    exact dateRangeGo_mem _ s d hs hd hsd hde (by omega)

theorem date_range_sorted (s e : Date) (hs : s.Okay) :
    List.Pairwise (fun a b => toOrd a < toOrd b) (date_range s e) :=
  dateRangeGo_sorted _ s hs


theorem mem_uniques_aux (l : List Nat) :
    ∀ (acc : List Nat) (y : Nat),
      y ∈ List.foldl (fun acc y => if y ∈ acc then acc else acc ++ [y]) acc l ↔
        y ∈ acc ∨ y ∈ l := by
  induction l with
  | nil =>
    intro acc y
    simp
  | cons a l ih =>
    intro acc y
    rw [List.foldl_cons, ih]
    by_cases h : a ∈ acc <;> simp [h, List.mem_append, List.mem_cons] <;>
      constructor <;> intro hc <;> rcases hc with h1 | h2
    · exact Or.inl h1
    · exact Or.inr (Or.inr h2)
    · exact Or.inl h1
    · rcases h2 with rfl | h3
      · exact Or.inl h
      · exact Or.inr h3
    · rcases h1 with h3 | rfl
      · exact Or.inl h3
      · exact Or.inr (Or.inl rfl)
    · exact Or.inr (Or.inr h2)
    · exact Or.inl (Or.inl h1)
    · rcases h2 with rfl | h3
      · exact Or.inl (Or.inr rfl)
      · exact Or.inr h3

theorem mem_uniques {l : List Nat} {y : Nat} : y ∈ uniques l ↔ y ∈ l := by
  unfold uniques
  rw [mem_uniques_aux]
  simp

theorem headD_mem {l : List Date} (h : l ≠ []) (dflt : Date) : l.headD dflt ∈ l := by
  cases l with
  | nil => exact absurd rfl h
  | cons a l => simp

theorem getLastD_eq_of_max :
    ∀ (l : List Date) (dflt a : Date),
      List.Pairwise (fun x y => toOrd x < toOrd y) l → a ∈ l →
      (∀ x ∈ l, toOrd x ≤ toOrd a) → l.getLastD dflt = a := by
  intro l
  induction l with
  | nil =>
    intro dflt a _ ha _
    simp at ha
  | cons b rest ih =>
    intro dflt a hp ha hmax
    cases rest with
    | nil =>
      rcases List.mem_cons.mp ha with rfl | h2
      · simp
      · simp at h2
    | cons c rest2 =>
      have ha2 : a ∈ c :: rest2 := by
        rcases List.mem_cons.mp ha with rfl | h2
        · exfalso
          have h3 : toOrd a < toOrd c :=
            (List.pairwise_cons.mp hp).1 c (List.mem_cons_self _ _)
          have h4 : toOrd c ≤ toOrd a :=
            hmax c (List.mem_cons_of_mem _ (List.mem_cons_self _ _))
          omega
        · exact h2
      rw [List.getLastD_cons]
      exact ih b a (List.pairwise_cons.mp hp).2 ha2
        (fun x hx => hmax x (List.mem_cons_of_mem _ hx))


theorem daymet_pair_mem {s e : Date} {Y : Nat}
    (hY : Y ∈ uniques (((date_range s e).filter daymetKeep).map Date.year)) :
    ((((date_range s e).filter daymetKeep).filter (fun d => d.year == Y)).headD ⟨0, 0, 0⟩,
      (((date_range s e).filter daymetKeep).filter (fun d => d.year == Y)).getLastD ⟨0, 0, 0⟩)
      ∈ daymet_dates s e := by
  unfold daymet_dates
  exact List.mem_map.mpr ⟨Y, hY, rfl⟩

theorem toOrd_dec31_succ {Y : Nat} : toOrd ⟨Y, 12, 31⟩ + 1 = ordOfYear (Y + 1) := by
  rw [toOrd_mk]
  have hc : cumDays (isLeap Y) 12 = cumDays (isLeap Y) (12 - 1) + 31 := by
    have h1 := cumDays_pred (isLeap Y) (show (1 : Nat) ≤ 12 by omega)
    have h2 : daysInMonth (isLeap Y) 12 = 31 := rfl
    omega
  have hs2 := ordOfYear_succ Y
  have hl := cumDays_isLeap Y
  omega

theorem daymet_leap_end {s e : Date} {Y : Nat} (hs : s.Okay) (he : e.Okay)
    (hY : isLeap Y = true)
    (h30 : toOrd s ≤ toOrd ⟨Y, 12, 30⟩) (h31 : toOrd ⟨Y, 12, 31⟩ ≤ toOrd e) :
    ∃ p ∈ daymet_dates s e, p.1.year = Y ∧ p.2 = ⟨Y, 12, 30⟩ := by
  have hok30 : (Date.mk Y 12 30).Okay := by
    rw [okay_mk]
    have : daysInMonth (isLeap Y) 12 = 31 := rfl
    omega
  have hok31 : (Date.mk Y 12 31).Okay := by
    rw [okay_mk]
    have : daysInMonth (isLeap Y) 12 = 31 := rfl
    omega
  have hord : toOrd (Date.mk Y 12 31) = toOrd (Date.mk Y 12 30) + 1 := by
    rw [toOrd_mk, toOrd_mk]
  have hkeep30 : daymetKeep ⟨Y, 12, 30⟩ = true := by
    unfold daymetKeep; simp
  have hmem30 : (Date.mk Y 12 30) ∈ date_range s e := by
    rw [mem_date_range hs]
    exact ⟨hok30, h30, by omega⟩
  have hmem30p : (Date.mk Y 12 30) ∈ (date_range s e).filter daymetKeep :=
    List.mem_filter.mpr ⟨hmem30, hkeep30⟩
  have hmem30g : (Date.mk Y 12 30) ∈
      ((date_range s e).filter daymetKeep).filter (fun d => d.year == Y) :=
    List.mem_filter.mpr ⟨hmem30p, by simp⟩
  have hmax : ∀ x ∈ ((date_range s e).filter daymetKeep).filter (fun d => d.year == Y),
      toOrd x ≤ toOrd (Date.mk Y 12 30) := by
    intro x hx
    obtain ⟨hxp, hxy⟩ := List.mem_filter.mp hx
    obtain ⟨hxr, hxk⟩ := List.mem_filter.mp hxp
    have hxok : x.Okay := ((mem_date_range hs).mp hxr).1
    have hxyear : x.year = Y := by simpa using hxy
    have hxlt : toOrd x < ordOfYear (x.year + 1) := toOrd_upper hxok
    rw [hxyear] at hxlt
    have h31o := toOrd_dec31_succ (Y := Y)
    have hle31 : toOrd x ≤ toOrd (Date.mk Y 12 31) := by omega
    rcases Nat.eq_or_lt_of_le hle31 with heq | hlt2
    · exfalso
      have hxeq : x = ⟨Y, 12, 31⟩ := toOrd_inj hxok hok31 heq
      rw [hxeq] at hxk
      unfold daymetKeep at hxk
      simp [hY] at hxk
    · omega
  have hgsorted : List.Pairwise (fun a b => toOrd a < toOrd b)
      (((date_range s e).filter daymetKeep).filter (fun d => d.year == Y)) :=
    List.Pairwise.sublist
      ((List.filter_sublist _).trans (List.filter_sublist _))
      (date_range_sorted s e hs)
  have hYu : Y ∈ uniques (((date_range s e).filter daymetKeep).map Date.year) := by
    rw [mem_uniques]
    exact List.mem_map.mpr ⟨⟨Y, 12, 30⟩, hmem30p, rfl⟩
  refine ⟨_, daymet_pair_mem hYu, ?_, ?_⟩
  · have hne : ((date_range s e).filter daymetKeep).filter (fun d => d.year == Y) ≠ [] :=
      List.ne_nil_of_mem hmem30g
    have hhd := headD_mem hne ⟨0, 0, 0⟩
    have := (List.mem_filter.mp hhd).2
    simpa using this
  · exact getLastD_eq_of_max _ _ _ hgsorted hmem30g hmax

end Hydrodata
namespace Hydrodata

theorem lookup?_eq_none {r : Record} {k : String} (h : k ∉ keysOf r) :
    lookup? r k = Option.none := by
  unfold lookup?
  rw [List.find?_eq_none.mpr]
  · rfl
  · intro p hp hc
    have hpk : p.1 = k := by simpa using hc
    exact h (hpk ▸ List.mem_map_of_mem (·.1) hp)

theorem lookup?_append {r1 r2 : Record} {k : String} :
    lookup? (r1 ++ r2) k = (lookup? r1 k).orElse (fun _ => lookup? r2 k) := by
  unfold lookup?
  rw [List.find?_append]
  cases List.find? (fun p => p.1 == k) r1 <;> rfl

theorem lookup?_of_mem_nodup {l : Record} {k : String} {v : Value}
    (hmem : (k, v) ∈ l) (hnd : (l.map Prod.fst).Nodup) : lookup? l k = some v := by
  induction l with
  | nil => simp at hmem
  | cons q rest ih =>
    rcases List.mem_cons.mp hmem with heq | hmem2
    · subst heq
      unfold lookup?
      rw [List.find?_cons_of_pos _ (by simp)]
      rfl
    · have hne : q.1 ≠ k := by
        intro hc
        have h1 : k ∈ rest.map Prod.fst := by
          exact List.mem_map_of_mem Prod.fst hmem2
        have h2 : q.1 ∉ rest.map Prod.fst := (List.nodup_cons.mp (by simpa using hnd)).1
        rw [hc] at h2
        exact h2 h1
      unfold lookup?
      rw [List.find?_cons_of_neg _ (by simpa using hne)]
      exact ih hmem2 (List.nodup_cons.mp (by simpa using hnd)).2

end Hydrodata
namespace Hydrodata

theorem dictSet_append {r : Record} {k : String} {v : Value}
    (h : ∀ q ∈ r, q.1 ≠ k) : dictSet r k v = r ++ [(k, v)] := by
  induction r with
  | nil => rfl
  | cons q rest ih =>
    unfold dictSet
    rw [show (q.1 == k) = false from beq_eq_false_iff_ne.mpr (h q (List.mem_cons_self _ _))]
    simp only [Bool.false_eq_true, if_false, List.cons_append, List.cons.injEq, true_and]
    exact ih (fun p hp => h p (List.mem_cons_of_mem _ hp))

theorem mergeLoop_eq (params : List String) :
    ∀ (l : List (String × Value)) (acc : Record),
      (∀ p ∈ l, p.1 ∉ params → ∀ q ∈ acc, q.1 ≠ p.1) →
      (l.map Prod.fst).Nodup →
      mergeLoop params l acc = acc ++ l.filter (fun p => p.1 ∉ params) := by
  intro l
  induction l with
  | nil =>
    intro acc _ _
    simp [mergeLoop]
  | cons p rest ih =>
    intro acc hdisj hnd
    obtain ⟨k, v⟩ := p
    have hnd2 : k ∉ rest.map Prod.fst ∧ (rest.map Prod.fst).Nodup := by
      rw [List.map_cons] at hnd
      exact List.nodup_cons.mp hnd
    unfold mergeLoop
    by_cases hk : k ∈ params
    · rw [if_pos hk]
      rw [ih acc (fun p hp hnp q hq => hdisj p (List.mem_cons_of_mem _ hp) hnp q hq) hnd2.2]
      rw [List.filter_cons]
      have hdec : (decide ((k, v).1 ∉ params)) = false := by simp [hk]
      rw [hdec]
      simp only [Bool.false_eq_true, if_false]
    · rw [if_neg hk]
      have hset : dictSet acc k v = acc ++ [(k, v)] :=
        dictSet_append (fun q hq => hdisj (k, v) (List.mem_cons_self _ _) hk q hq)
      rw [hset]
      rw [ih (acc ++ [(k, v)]) ?_ hnd2.2]
      · rw [List.filter_cons]
        have hdec : (decide ((k, v).1 ∉ params)) = true := by simp [hk]
        rw [hdec]
        simp only [if_true]
        rw [List.append_assoc]
        rfl
      · intro p hp hnp q hq
        rcases List.mem_append.mp hq with hq1 | hq2
        · exact hdisj p (List.mem_cons_of_mem _ hp) hnp q hq1
        · have hqe : q = (k, v) := by simpa using hq2
          subst hqe
          intro hc
          apply hnd2.1
          rw [show k = p.1 from hc]
          exact List.mem_map_of_mem Prod.fst hp

theorem mergeDefaults_eq (r : Record) :
    mergeDefaults r = r ++ defaultList.filter (fun p => p.1 ∉ keysOf r) := by
  unfold mergeDefaults
  rw [mergeLoop_eq (keysOf r) defaultList r ?_ (by decide)]
  intro p _ hnp q hq hc
  exact hnp (hc ▸ List.mem_map_of_mem (·.1) hq)

end Hydrodata
namespace Hydrodata

theorem lookup?_mergeDefaults_present {r : Record} {k : String} {v : Value}
    (h : lookup? r k = some v) : lookup? (mergeDefaults r) k = some v := by
  rw [mergeDefaults_eq, lookup?_append, h]
  rfl

theorem lookup?_mergeDefaults_missing {r : Record} {k : String} {v : Value}
    (hmem : (k, v) ∈ defaultList) (hmiss : k ∉ keysOf r) :
    lookup? (mergeDefaults r) k = some v := by
  rw [mergeDefaults_eq, lookup?_append, lookup?_eq_none hmiss]
  show lookup? (defaultList.filter (fun p => p.1 ∉ keysOf r)) k = some v
  apply lookup?_of_mem_nodup
  · exact List.mem_filter.mpr ⟨hmem, by simpa using hmiss⟩
  · exact List.Nodup.sublist (List.Sublist.map Prod.fst (List.filter_sublist _))
      (by decide)

theorem mergeDefaults_of_complete {r : Record}
    (h : ∀ p ∈ defaultList, p.1 ∈ keysOf r) : mergeDefaults r = r := by
  rw [mergeDefaults_eq]
  have hnil : defaultList.filter (fun p => p.1 ∉ keysOf r) = [] := by
    rw [List.filter_eq_nil_iff]
    intro p hp
    simp [h p hp]
  rw [hnil, List.append_nil]

theorem get_data_of_bothSet (env : Env) (r : Record) (h : bothSet r = true) :
    get_data env r = ([], .error (.keyError exclusivityMsg)) := by
  simp [get_data, jobParams, h]

theorem batch_snd (env : Env) (recs : List Record) :
    (batch env recs).2 = collectResults (recs.map (fun r => (get_data env r).2)) := by
  unfold batch
  dsimp only
  rw [List.map_map]
  rfl

theorem collectResults_all_ok :
    ∀ (l : List (Except PyError Value)), (∀ x ∈ l, ∃ v, x = .ok v) →
      ∃ vs, collectResults l = .ok vs ∧ vs.length = l.length ∧
        ∀ k (hk : k < l.length) (hk2 : k < vs.length), l[k] = .ok vs[k] := by
  intro l
  induction l with
  | nil =>
    intro _
    exact ⟨[], rfl, rfl, fun k hk _ => absurd hk (Nat.not_lt_zero k)⟩
  | cons x rest ih =>
    intro h
    obtain ⟨v, rfl⟩ := h x (List.mem_cons_self _ _)
    obtain ⟨vs, hcol, hlen, hidx⟩ := ih (fun y hy => h y (List.mem_cons_of_mem _ hy))
    refine ⟨v :: vs, ?_, by simp [hlen], ?_⟩
    · unfold collectResults
      rw [hcol]
    · intro k hk hk2
      cases k with
      | zero => rfl
      | succ n =>
        simp only [List.getElem_cons_succ]
        exact hidx n (by simpa using hk) (by simpa using hk2)

theorem collectResults_error_first :
    ∀ (l : List (Except PyError Value)) (k : Nat) (hk : k < l.length) (e : PyError),
      l[k] = .error e →
      (∀ j (hj : j < l.length), j < k → ∃ v, l[j] = .ok v) →
      collectResults l = .error e := by
  intro l
  induction l with
  | nil =>
    intro k hk
    exact absurd hk (Nat.not_lt_zero k)
  | cons x rest ih =>
    intro k hk e hke hprev
    cases k with
    | zero =>
      have hx : x = .error e := hke
      rw [hx]
      rfl
    | succ n =>
      obtain ⟨v, hv⟩ := hprev 0 (by simp) (Nat.succ_pos n)
      have hx : x = .ok v := hv
      subst hx
      have hrest : collectResults rest = .error e :=
        ih n (by simpa using hk) e (by simpa using hke)
          (fun j hj hjn => by
            have := hprev (j + 1) (by simpa using hj) (by omega)
            simpa using this)
      unfold collectResults
      rw [hrest]

theorem collectResults_ok_all {l : List (Except PyError Value)} {vs : List Value}
    (h : collectResults l = .ok vs) : ∀ x ∈ l, ∃ v, x = .ok v := by
  induction l generalizing vs with
  | nil =>
    intro x hx
    simp at hx
  | cons x rest ih =>
    intro y hy
    cases x with
    | error e => exact absurd h (by simp [collectResults])
    | ok v =>
      rcases List.mem_cons.mp hy with rfl | hy2
      · exact ⟨v, rfl⟩
      · unfold collectResults at h
        cases hrest : collectResults rest with
        | error e => rw [hrest] at h; simp at h
        | ok vs2 => exact ih hrest y hy2

end Hydrodata
namespace Hydrodata

/-- C1: for every job record in which both `station_id` and `coords` are
present and non-null, `get_data` fails during normalization with the
exclusivity `KeyError` ("Either coords or station_id should be provided."),
and performs no dataset-loading work (empty event trace), whatever the
`Dataloader` collaborator would do. -/
theorem claim_C1_exclusivity_aborts (env : Env) (r : Record) (sid c : Value)
    (h1 : lookup? r "station_id" = some sid) (h2 : sid ≠ Value.none)
    (h3 : lookup? r "coords" = some c) (h4 : c ≠ Value.none) :
    get_data env r = ([], .error (.keyError exclusivityMsg)) := by
  apply get_data_of_bothSet
  unfold bothSet
  rw [h1, h3]
  simp [h2, h4]

/-- Witness for C1 at a concrete record with both identifiers set. -/
theorem claim_C1_witness :
    get_data env0 recBoth = ([], .error (.keyError exclusivityMsg)) :=
  claim_C1_exclusivity_aborts env0 recBoth (.str "01031500") (.pair (-69) 45)
    (by decide) (by decide) (by decide) (by decide)

/-- C2 (code bug): the defaults dict misspells `years` as `yreas`, so a
record missing `years` is NOT given the documented default under `years`:
after normalization `years` is absent (the default landed under `yreas`),
and a job with `nlcd` set then fails with `KeyError("years")` instead of
using the default years mapping. -/
theorem claim_C2_years_default_bug :
    lookup? (jobParams recNlcd).1 "years" = Option.none ∧
    lookup? (jobParams recNlcd).1 "yreas" = some (.yearsMap 2016 2016 2016) ∧
    (get_data env0 recNlcd).2 = .error (.keyError "years") := by decide

/-- C3 counterexample: in a batch whose second record fails the
exclusivity check, the batch call does fail, but a `Dataloader` is
nevertheless constructed (for the first record) — normalization does not
happen before dispatch. -/
theorem claim_C3_counterexample :
    bothSet recBoth = true ∧
    (batch env0 [recGood, recBoth]).2 = .error (.keyError exclusivityMsg) ∧
    (batch env0 [recGood, recBoth]).1.any isLoaderConstructed = true := by decide

/-- C3 (amended): a record failing the exclusivity check still makes the
whole batch call fail (the error surfaces when results are collected),
for any collaborator behaviour and any surrounding records. -/
theorem claim_C3_batch_fails (env : Env) (recs : List Record) (r : Record)
    (hr : r ∈ recs) (hb : bothSet r = true) :
    ∃ e, (batch env recs).2 = .error e := by
  rcases hsnd : (batch env recs).2 with e | vs
  · exact ⟨e, rfl⟩
  · exfalso
    rw [batch_snd] at hsnd
    have hall := collectResults_ok_all hsnd
    have hmem : (get_data env r).2 ∈ recs.map (fun r => (get_data env r).2) :=
      List.mem_map_of_mem _ hr
    obtain ⟨v, hv⟩ := hall _ hmem
    rw [get_data_of_bothSet env r hb] at hv
    simp at hv

/-- Witness for the amended C3. -/
theorem claim_C3_witness :
    ∃ e, (batch env0 [recGood, recBoth]).2 = .error e :=
  claim_C3_batch_fails env0 [recGood, recBoth] recBoth (by decide) (by decide)

/-- C4: when every job of the batch succeeds, the batch returns exactly one
output per record, in input order: the k-th returned value is the value
produced by `get_data` on the k-th input record. -/
theorem claim_C4_batch_order (env : Env) (recs : List Record)
    (h : ∀ r ∈ recs, ∃ v, (get_data env r).2 = .ok v) :
    ∃ vs, (batch env recs).2 = .ok vs ∧ vs.length = recs.length ∧
      ∀ k (hk : k < recs.length) (hk2 : k < vs.length),
        (get_data env recs[k]).2 = .ok vs[k] := by
  have hl : ∀ x ∈ recs.map (fun r => (get_data env r).2), ∃ v, x = .ok v := by
    intro x hx
    obtain ⟨r, hr, rfl⟩ := List.mem_map.mp hx
    exact h r hr
  obtain ⟨vs, hcol, hlen, hidx⟩ := collectResults_all_ok _ hl
  refine ⟨vs, ?_, by simpa using hlen, ?_⟩
  · rw [batch_snd]
    exact hcol
  · intro k hk hk2
    have hk3 : k < (recs.map (fun r => (get_data env r).2)).length := by simpa using hk
    have hg := hidx k hk3 hk2
    rwa [List.getElem_map] at hg

/-- Witness for C4 with two concrete successful records. -/
theorem claim_C4_witness :
    ∃ vs, (batch env0 [recGood, recGood2]).2 = .ok vs ∧
      vs.length = [recGood, recGood2].length ∧
      ∀ k (hk : k < [recGood, recGood2].length) (hk2 : k < vs.length),
        (get_data env0 ([recGood, recGood2])[k]).2 = .ok vs[k] :=
  claim_C4_batch_order env0 [recGood, recGood2] (by
    intro r hr
    rcases List.mem_cons.mp hr with rfl | hr2
    · exact ⟨.str "./data", rfl⟩
    · rcases List.mem_cons.mp hr2 with rfl | hr3
      · exact ⟨.str "./data2", rfl⟩
      · simp at hr3)

end Hydrodata
namespace Hydrodata

/-- C5 counterexample: normalization is not side-effect-free — the loop
`stations[k] = default[k]` mutates the caller-supplied dict, so after the
call the caller's mapping differs from what was passed in. -/
theorem claim_C5_counterexample : (jobParams recGood).1 ≠ recGood := by decide

/-- C5 (amended): normalization is deterministic and its only effect is
the in-place insertion of missing default keys into the caller's mapping:
present keys keep their values, on the exclusivity error (raised before
the loop) the mapping is untouched, each missing default key ends up
bound to its default, and a record already containing every default key
is left unmodified. -/
theorem claim_C5_mutation_only (r : Record) :
    (∀ k v, lookup? r k = some v → lookup? (jobParams r).1 k = some v) ∧
    ((jobParams r).2 = .error (.keyError exclusivityMsg) → (jobParams r).1 = r) ∧
    (bothSet r = false → ∀ k v, (k, v) ∈ defaultList → k ∉ keysOf r →
      lookup? (jobParams r).1 k = some v) ∧
    ((∀ p ∈ defaultList, p.1 ∈ keysOf r) → (jobParams r).1 = r) := by
  refine ⟨?_, ?_, ?_, ?_⟩
  · intro k v h
    by_cases hb : bothSet r = true
    · simp only [jobParams, hb, if_true]
      exact h
    · simp only [jobParams, hb, Bool.false_eq_true, if_false]
      exact lookup?_mergeDefaults_present h
  · intro h
    by_cases hb : bothSet r = true
    · simp [jobParams, hb]
    · simp [jobParams, hb] at h
  · intro hb k v hmem hmiss
    simp only [jobParams, hb, Bool.false_eq_true, if_false]
    exact lookup?_mergeDefaults_missing hmem hmiss
  · intro hall
    by_cases hb : bothSet r = true
    · simp [jobParams, hb]
    · simp only [jobParams, hb, Bool.false_eq_true, if_false]
      exact mergeDefaults_of_complete hall

/-- Witness for the amended C5. -/
theorem claim_C5_witness :
    lookup? (jobParams recGood).1 "station_id" = some (.str "01031500") ∧
    lookup? (jobParams recGood).1 "width" = some (.nat 2000) :=
  ⟨(claim_C5_mutation_only recGood).1 "station_id" (.str "01031500") (by decide),
   (claim_C5_mutation_only recGood).2.2.1 (by decide) "width" (.nat 2000)
     (by decide) (by decide)⟩

/-- C6 counterexample: a 304 response is not in the 2xx success range and
not in the retry set, yet the session returns it without raising. -/
theorem claim_C6_counterexample :
    ¬(200 ≤ 304 ∧ 304 < 300) ∧ 304 ∉ status_forcelist ∧
      sessionDeliver 304 = .ok 304 := by decide

/-- C6 (amended): the `raise_for_status` hook converts exactly the 4xx/5xx
client- and server-error statuses into a raised `HTTPError` carrying the
response; non-2xx statuses below 400 (1xx/3xx) are returned as normal
results. -/
theorem claim_C6_error_range (s : Nat) :
    (400 ≤ s ∧ s < 600 ∧ s ∉ status_forcelist →
      sessionDeliver s = .error (.httpError s)) ∧
    (s < 400 ∨ 600 ≤ s → sessionDeliver s = .ok s) := by
  constructor
  · rintro ⟨h1, h2, _⟩
    unfold sessionDeliver raise_for_status
    rw [if_pos ⟨h1, h2⟩]
  · intro h
    unfold sessionDeliver raise_for_status
    rw [if_neg (by omega)]

/-- Witness for the amended C6. -/
theorem claim_C6_witness :
    sessionDeliver 404 = .error (.httpError 404) ∧ sessionDeliver 301 = .ok 301 :=
  ⟨(claim_C6_error_range 404).1 (by decide), (claim_C6_error_range 301).2 (by decide)⟩

/-- C7: if the job at index k raises while all other jobs succeed, the
batch call raises that job's error and never returns a (possibly
truncated) result list. -/
theorem claim_C7_no_partial_results (env : Env) (recs : List Record) (k : Nat)
    (hk : k < recs.length) (e : PyError)
    (hfail : (get_data env recs[k]).2 = .error e)
    (hothers : ∀ j (hj : j < recs.length), j ≠ k →
      ∃ v, (get_data env recs[j]).2 = .ok v) :
    (batch env recs).2 = .error e ∧ ∀ vs, (batch env recs).2 ≠ .ok vs := by
  have hk3 : k < (recs.map (fun r => (get_data env r).2)).length := by simpa using hk
  have h1 : (recs.map (fun r => (get_data env r).2))[k] = .error e := by
    rw [List.getElem_map]
    exact hfail
  have h2 : ∀ j (hj : j < (recs.map (fun r => (get_data env r).2)).length), j < k →
      ∃ v, (recs.map (fun r => (get_data env r).2))[j] = .ok v := by
    intro j hj hjk
    have hj2 : j < recs.length := by simpa using hj
    obtain ⟨v, hv⟩ := hothers j hj2 (by omega)
    exact ⟨v, by rw [List.getElem_map]; exact hv⟩
  have hcol := collectResults_error_first _ k hk3 e h1 h2
  constructor
  · rw [batch_snd]
    exact hcol
  · intro vs hvs
    rw [batch_snd, hcol] at hvs
    exact Except.noConfusion hvs

/-- Witness for C7: the second of three jobs fails. -/
theorem claim_C7_witness :
    (batch env0 [recGood, recNlcd, recGood2]).2 = .error (.keyError "years") ∧
    ∀ vs, (batch env0 [recGood, recNlcd, recGood2]).2 ≠ .ok vs :=
  claim_C7_no_partial_results env0 [recGood, recNlcd, recGood2] 1 (by decide)
    (.keyError "years") (by decide)
    (by
      intro j hj hj1
      have hj3 : j < 3 := by simpa using hj
      interval_cases j
      · simp only [List.getElem_cons_zero]
        exact ⟨.str "./data", rfl⟩
      · exact absurd rfl hj1
      · simp only [List.getElem_cons_succ, List.getElem_cons_zero]
        exact ⟨.str "./data2", rfl⟩)

end Hydrodata
namespace Hydrodata

/-- C8: `daymet_dates("2015-12-01","2016-01-05")` returns exactly the two
per-year ranges, the first ending 2015-12-31 (non-leap year, Dec 31 kept)
and the second starting 2016-01-01; and for every range containing the end
of a leap year Y (both Dec 30 and Dec 31 of Y), the pair returned for year
Y ends on December 30. -/
theorem claim_C8_daymet_dates :
    (daymet_dates ⟨2015, 12, 1⟩ ⟨2016, 1, 5⟩ =
      [(⟨2015, 12, 1⟩, ⟨2015, 12, 31⟩), (⟨2016, 1, 1⟩, ⟨2016, 1, 5⟩)]) ∧
    (∀ (s e : Date) (Y : Nat), s.Okay → e.Okay → isLeap Y = true →
      toOrd s ≤ toOrd ⟨Y, 12, 30⟩ → toOrd ⟨Y, 12, 31⟩ ≤ toOrd e →
      ∃ p ∈ daymet_dates s e, p.1.year = Y ∧ p.2 = ⟨Y, 12, 30⟩) :=
  ⟨by decide, fun _ _ _ hs he hY h30 h31 => daymet_leap_end hs he hY h30 h31⟩

/-- Witness for C8's leap-year-end clause on a concrete range. -/
theorem claim_C8_witness :
    ∃ p ∈ daymet_dates ⟨2016, 1, 1⟩ ⟨2017, 2, 3⟩,
      p.1.year = 2016 ∧ p.2 = ⟨2016, 12, 30⟩ :=
  claim_C8_daymet_dates.2 ⟨2016, 1, 1⟩ ⟨2017, 2, 3⟩ 2016 (by decide) (by decide)
    (by decide) (by decide) (by decide)

/-- C9: for a single coordinate whose request completes, `get_elevation`
returns the parsed elevation, except when it equals the sentinel -1000000,
in which case it raises a `ValueError` whose message names the requested
coordinate. -/
theorem claim_C9_elevation (lon lat elev : Int) :
    (elev ≠ -1000000 → get_elevation (.ok elev) lon lat = (false, .ok elev)) ∧
    (elev = -1000000 → get_elevation (.ok elev) lon lat =
      (false, .error (.valueError (elevMsg lon lat)))) := by
  constructor <;> intro h <;> simp [get_elevation, h]

/-- Witness for C9 at a concrete coordinate. -/
theorem claim_C9_witness :
    get_elevation (.ok 250) (-77) 39 = (false, .ok 250) ∧
    get_elevation (.ok (-1000000)) (-77) 39 =
      (false, .error (.valueError (elevMsg (-77) 39))) :=
  ⟨(claim_C9_elevation (-77) 39 250).1 (by decide),
   (claim_C9_elevation (-77) 39 (-1000000)).2 rfl⟩

/-- C10: the clause `except ConnectionError or Timeout or RequestException`
evaluates its expression to `ConnectionError` alone, so it handles (and
re-raises) exactly `ConnectionError`; a `Timeout` or any other
`RequestException` that is not a `ConnectionError` propagates unhandled by
this clause (the caller still sees the exception either way). -/
theorem claim_C10_except_clause (e : PyError) (lon lat : Int) :
    exceptClauseClass = ExcClass.connectionError ∧
    (classOf e = .connectionError →
      get_elevation (.error e) lon lat = (true, .error e)) ∧
    (classOf e = .timeout → get_elevation (.error e) lon lat = (false, .error e)) ∧
    (isSubclass (classOf e) .requestException = true → classOf e ≠ .connectionError →
      get_elevation (.error e) lon lat = (false, .error e)) := by
  refine ⟨rfl, ?_, ?_, ?_⟩
  · intro h
    simp [get_elevation, clauseCatches, exceptClauseClass, pyOrClass, isSubclass, h]
  · intro h
    simp [get_elevation, clauseCatches, exceptClauseClass, pyOrClass, isSubclass, h]
  · intro h1 h2
    cases hc : classOf e <;>
      simp_all [get_elevation, clauseCatches, exceptClauseClass, pyOrClass, isSubclass]

/-- Witness for C10: a timeout is not handled by the clause, a connection
error is handled and re-raised. -/
theorem claim_C10_witness :
    get_elevation (.error .timeout) (-77) 39 = (false, .error .timeout) ∧
    get_elevation (.error .connectionError) (-77) 39 =
      (true, .error .connectionError) :=
  ⟨(claim_C10_except_clause .timeout (-77) 39).2.2.1 rfl,
   (claim_C10_except_clause .connectionError (-77) 39).2.1 rfl⟩

end Hydrodata
